import Mathlib

/-!
Verification of the authentication core of the Online-Shop repository
(src/main.py, src/forms.py) against its specification.

The repository is a Flask application. Its own code (src/main.py) contains
the User model, the login / register / logout / shop route handlers and the
user loader. The password hasher (werkzeug generate_password_hash /
check_password_hash) and the session manager (flask_login) are external
collaborators whose code is not part of the repository; they are modelled
from the specification contract (spec sections 4.2 and 4.3), with the
randomness of salt generation made explicit as a parameter.
-/

namespace OnlineShop

/-! ## Password hasher (spec section 4.2) -/

/-- Modelled from the spec: the method tag that werkzeug prefixes to a hash
string (self-describing format `method$salt$digest`). -/
def METHOD : String := "pbkdf2:sha256:260000"

/-- Modelled from the spec: the salted one-way digest recomputed by
verification. The spec requires that for a fixed salt distinct plaintexts
give distinct digests (`verify(hash(p1), p2) == false` whenever p1 ≠ p2), so
the digest is modelled as an injective combination of salt and plaintext;
the cryptographic one-wayness itself is outside the embedding. -/
def pwDigest (salt plaintext : List Char) : List Char :=
  salt ++ '#' :: plaintext

/-- Split a character list at the first occurrence of `c`: the model of
Python `str.split(sep, 1)` as used by werkzeug to parse `method$salt$digest`.
Returns the part before the first `c` and the part after it. -/
def breakAt (c : Char) : List Char → Option (List Char × List Char)
  | [] => none
  | x :: xs =>
    if x = c then some ([], xs)
    else (breakAt c xs).map (fun p => (x :: p.1, p.2))

/-- Modelled from the spec: `hash(plaintext)` with the randomly generated
salt made an explicit argument. Produces the self-describing string
`METHOD$salt$digest` so that verification needs no separate salt storage. -/
def generate_password_hash (salt plaintext : String) : String :=
  String.mk (METHOD.toList ++ '$' :: (salt.toList ++ '$' :: pwDigest salt.toList plaintext.toList))

/-- Modelled from the spec: `verify(hashString, plaintext)`. Parses the
self-describing hash string into method, salt and digest (returning false
when the string does not contain two separators, rather than raising),
recomputes the digest with the embedded salt and compares. -/
def check_password_hash (pwhash password : String) : Bool :=
  match breakAt '$' pwhash.toList with
  | none => false
  | some mrest =>
    match breakAt '$' mrest.2 with
    | none => false
    | some saltHash => decide (pwDigest saltHash.1 password.toList = saltHash.2)

/-- Modelled from the spec: the salt is recoverable from the hash string
alone (self-describing format). -/
def recoverSalt (pwhash : String) : Option String :=
  match breakAt '$' pwhash.toList with
  | none => none
  | some mrest =>
    match breakAt '$' mrest.2 with
    | none => none
    | some saltHash => some (String.mk saltHash.1)

/-! ## Data model and application state (src/main.py, src/forms.py) -/

/-- The User table of the shop database (class User in src/main.py):
integer primary key, unique email, password hash string, display name. -/
structure User where
  id : Nat
  email : String
  password : String
  name : String
deriving DecidableEq

/-- The credential store: the users table in insertion order together with
the next auto-increment primary key value. -/
structure DB where
  users : List User
  nextId : Nat
deriving DecidableEq

/-- SQLAlchemy lookup `User.query.filter_by(email=email).first()`. -/
def findByEmail (db : DB) (email : String) : Option User :=
  db.users.find? (fun u => u.email == email)

/-- The flask_login user loader (load_user in src/main.py):
`User.query.get(user_id)`, a primary-key lookup. -/
def load_user (db : DB) (user_id : Nat) : Option User :=
  db.users.find? (fun u => u.id == user_id)

/-- Modelled from the spec: the per-browser-context state of the
flask_login Session Manager (not part of src/) attached to the store —
`none` is Anonymous, `some id` is Authenticated(id) (spec section 4.3). -/
structure AppState where
  db : DB
  session : Option Nat
deriving DecidableEq

/-- Modelled from the spec: flask_login `login_user(user)` records the
user id in the session transport, replacing any prior session. -/
def login_user (s : AppState) (u : User) : AppState :=
  { s with session := some u.id }

/-- Modelled from the spec: flask_login `logout_user()` clears the
session transport. -/
def logout_user (s : AppState) : AppState :=
  { s with session := none }

/-- Modelled from the spec: flask_login `current_user` — rehydrates the
authenticated user by primary-key lookup through the registered user
loader; no session, or an id that no longer resolves, is Anonymous. -/
def current_user (s : AppState) : Option User :=
  s.session.bind (fun uid => load_user s.db uid)

/-- A handler response: a redirect to a path or a rendered template. -/
inductive Response where
  | redirect (path : String)
  | render (template : String)
deriving DecidableEq

/-- Flask endpoint names used by the redirects of src/main.py. -/
def eHome : String := "home"

def eLogin : String := "login"

/-- Paths of the two redirect targets of src/main.py. -/
def pathRoot : String := "/"

def pathLogin : String := "/login"

/-- Flask `url_for` restricted to the endpoints the handlers redirect to. -/
def url_for (endpoint : String) : String :=
  if endpoint = eLogin then pathLogin else pathRoot

/-- Template names rendered by the handlers of src/main.py. -/
def tLogin : String := "login.html"

def tRegister : String := "register.html"

def tGlasses : String := "glasses.html"

/-- The flash messages of src/main.py. -/
def msgNoEmail : String := "Email doesn\x27t exist"

def msgBadPassword : String := "Password doesn\x27t match"

def msgEmailExists : String := "Email Already Exists"

/-- The outcome of one request: the new application state, the flash
messages emitted, and the response. -/
structure Result where
  state : AppState
  flashes : List String
  response : Response
deriving DecidableEq

/-- The login form of src/forms.py (CreateLoginForm). -/
structure CreateLoginForm where
  email : String
  password : String
deriving DecidableEq

/-- The registration form of src/forms.py (CreateUserForm). -/
structure CreateUserForm where
  name : String
  email : String
  password : String
deriving DecidableEq

/-- WTForms DataRequired validation of the login form, checked by
`form.validate_on_submit()`: both fields non-empty. -/
def validLogin (f : CreateLoginForm) : Bool :=
  f.email != "" && f.password != ""

/-- WTForms DataRequired validation of the registration form. -/
def validRegister (f : CreateUserForm) : Bool :=
  f.name != "" && f.email != "" && f.password != ""

/-! ## Route handlers (src/main.py) -/

/-- The login route of src/main.py on a submitted form. Looks the user up
by email; on a miss flashes that the email does not exist; on a password
mismatch flashes that the password does not match; on a match logs the
user in and redirects home. An unvalidated form re-renders login.html. -/
def login (s : AppState) (form : CreateLoginForm) : Result :=
  if validLogin form then
    match findByEmail s.db form.email with
    | some user =>
      if check_password_hash user.password form.password then
        { state := login_user s user, flashes := [],
          response := Response.redirect (url_for eHome) }
      else
        { state := s, flashes := [msgBadPassword],
          response := Response.redirect (url_for eLogin) }
    | none =>
      { state := s, flashes := [msgNoEmail],
        response := Response.redirect (url_for eLogin) }
  else
    { state := s, flashes := [], response := Response.render tLogin }

/-- The User record built by the register route of src/main.py: the next
primary key, the submitted email and name, and the hashed password
(generate_password_hash with salt_length 8). -/
def newUser (db : DB) (salt : String) (form : CreateUserForm) : User :=
  { id := db.nextId, email := form.email,
    password := generate_password_hash salt form.password, name := form.name }

/-- The register route of src/main.py on a submitted form, the randomly
generated salt made an explicit argument. If no user has the submitted
email, the new record is added and committed and the response redirects
home — no `login_user` call occurs on this path. Otherwise it flashes
that the email already exists and redirects to login. -/
def register (s : AppState) (salt : String) (form : CreateUserForm) : Result :=
  if validRegister form then
    match findByEmail s.db form.email with
    | none =>
      { state := { db := { users := s.db.users ++ [newUser s.db salt form],
                           nextId := s.db.nextId + 1 },
                   session := s.session },
        flashes := [], response := Response.redirect (url_for eHome) }
    | some _ =>
      { state := s, flashes := [msgEmailExists],
        response := Response.redirect (url_for eLogin) }
  else
    { state := s, flashes := [], response := Response.render tRegister }

/-- The shop route of src/main.py behind the login_required guard. The
guard is flask_login code, modelled from the spec: an anonymous request
is redirected to the login entry point instead of receiving the
protected content (spec section 6). -/
def shop (s : AppState) : Result :=
  match current_user s with
  | none => { state := s, flashes := [], response := Response.redirect (url_for eLogin) }
  | some _ => { state := s, flashes := [], response := Response.render tGlasses }

/-- The logout route of src/main.py: logout_user, then redirect home. -/
def logout (s : AppState) : Result :=
  { state := logout_user s, flashes := [], response := Response.redirect (url_for eHome) }

/-! ## Reachability -/

/-- The application state before any request: empty users table, first
primary key 1, anonymous session. -/
def initState : AppState :=
  { db := { users := [], nextId := 1 }, session := none }

/-- One state transition: the state component of any state-touching
request handler of src/main.py. -/
inductive Step : AppState → AppState → Prop
  | ofLogin (s : AppState) (form : CreateLoginForm) : Step s (login s form).state
  | ofRegister (s : AppState) (salt : String) (form : CreateUserForm) :
      Step s (register s salt form).state
  | ofLogout (s : AppState) : Step s (logout s).state
  | ofShop (s : AppState) : Step s (shop s).state

/-- A state reachable from the initial state by request handling. -/
def Reachable (s : AppState) : Prop :=
  Relation.ReflTransGen Step initState s

/-- The store invariant of the spec: no two users share an email. -/
def EmailsUnique (db : DB) : Prop :=
  (db.users.map User.email).Nodup

/-! ## Concrete sample data for witnesses -/

def sampleSalt : String := "abcdefgh"

def sampleSalt2 : String := "hgfedcba"

def samplePw : String := "pw1"

def sampleEmail : String := "a@x.com"

def sampleName : String := "Ann"

def regForm1 : CreateUserForm :=
  { name := sampleName, email := sampleEmail, password := samplePw }

def loginForm1 : CreateLoginForm :=
  { email := sampleEmail, password := samplePw }

/-- The state after registering the sample user in the initial state. -/
def state1 : AppState :=
  (register initState sampleSalt regForm1).state

/-- The sample user record created by that registration. -/
def user1 : User :=
  newUser initState.db sampleSalt regForm1

/-! ## Parsing lemmas for the hash string format -/

theorem breakAt_append_of_not_mem (c : Char) (a b : List Char) (h : c ∉ a) :
    breakAt c (a ++ c :: b) = some (a, b) := by
  induction a with
  | nil => simp [breakAt]
  | cons x xs ih =>
    have hx : x ≠ c := fun hxc => h (hxc ▸ List.mem_cons_self x xs)
    have hxs : c ∉ xs := fun hm => h (List.mem_cons_of_mem x hm)
    simp [breakAt, hx, ih hxs]

theorem breakAt_eq_none_of_not_mem (c : Char) (l : List Char) (h : c ∉ l) :
    breakAt c l = none := by
  induction l with
  | nil => rfl
  | cons x xs ih =>
    have hx : x ≠ c := fun hxc => h (hxc ▸ List.mem_cons_self x xs)
    have hxs : c ∉ xs := fun hm => h (List.mem_cons_of_mem x hm)
    simp [breakAt, hx, ih hxs]

theorem breakAt_eq_some (c : Char) (l a b : List Char)
    (h : breakAt c l = some (a, b)) : c ∉ a ∧ l = a ++ c :: b := by
  induction l generalizing a b with
  | nil => simp [breakAt] at h
  | cons x xs ih =>
    by_cases hx : x = c
    · subst hx
      simp [breakAt] at h
      obtain ⟨ha, hb⟩ := h
      subst ha; subst hb
      exact ⟨List.not_mem_nil x, rfl⟩
    · rw [breakAt, if_neg hx] at h
      cases hxs : breakAt c xs with
      | none => rw [hxs] at h; simp at h
      | some pq =>
        rw [hxs] at h
        simp only [Option.map_some', Option.some.injEq, Prod.mk.injEq] at h
        obtain ⟨hpa, hqb⟩ := h
        obtain ⟨hcp, hl⟩ := ih pq.1 pq.2 (by rw [hxs])
        subst hpa
        constructor
        · intro hmem
          rcases List.mem_cons.mp hmem with h1 | h2
          · exact hx h1.symm
          · exact hcp h2
        · rw [hl, ← hqb]; rfl

theorem toList_mk (l : List Char) : (String.mk l).toList = l := rfl

theorem toList_injective (s t : String) (h : s.toList = t.toList) : s = t := by
  cases s; cases t
  exact congrArg String.mk (by simpa [String.toList] using h)

/-- The salt and the digest of a well-formed hash string are recovered
exactly by the parser, provided the method and salt are separator-free. -/
theorem check_generate (salt p1 p2 : String) (h : ('$' : Char) ∉ salt.toList) :
    check_password_hash (generate_password_hash salt p1) p2 = decide (p2 = p1) := by
  have hm : ('$' : Char) ∉ METHOD.toList := by decide
  simp only [check_password_hash, generate_password_hash, toList_mk,
    breakAt_append_of_not_mem _ _ _ hm, breakAt_append_of_not_mem _ _ _ h]
  have hiff : pwDigest salt.toList p2.toList = pwDigest salt.toList p1.toList ↔ p2 = p1 := by
    constructor
    · intro hd
      have h1 : '#' :: p2.toList = '#' :: p1.toList :=
        List.append_cancel_left (hd : salt.toList ++ '#' :: p2.toList = salt.toList ++ '#' :: p1.toList)
      have h2 : p2.toList = p1.toList := by injection h1
      exact toList_injective _ _ h2
    · intro hp; rw [hp]
  simp only [decide_eq_decide]
  exact hiff

/-! ## Claims about the password hasher (spec section 4.2) -/

/-- C3: for all plaintexts p1, p2 and every (separator-free) salt,
verify(hash(p1), p2) returns true exactly when p1 = p2: the round trip
verify(hash(p), p) holds, and any distinct plaintext is rejected. -/
theorem C3_verify_iff_same_password (salt p1 p2 : String)
    (h : ('$' : Char) ∉ salt.toList) :
    check_password_hash (generate_password_hash salt p1) p2 = true ↔ p1 = p2 := by
  rw [check_generate salt p1 p2 h]
  simp only [decide_eq_true_eq]
  exact comm

theorem C3_verify_iff_same_password_witness :
    check_password_hash (generate_password_hash sampleSalt samplePw) samplePw = true :=
  (C3_verify_iff_same_password sampleSalt samplePw samplePw (by decide)).mpr rfl

/-- C4: hashing one plaintext with two distinct 8-character salts yields
two different hash strings, both of which verify true against the
plaintext, and the salt is recoverable from the hash string alone. -/
theorem C4_distinct_salts (s1 s2 p : String)
    (h1 : ('$' : Char) ∉ s1.toList) (h2 : ('$' : Char) ∉ s2.toList)
    (hl1 : s1.length = 8) (hl2 : s2.length = 8) (hne : s1 ≠ s2) :
    generate_password_hash s1 p ≠ generate_password_hash s2 p ∧
    check_password_hash (generate_password_hash s1 p) p = true ∧
    check_password_hash (generate_password_hash s2 p) p = true ∧
    recoverSalt (generate_password_hash s1 p) = some s1 := by
  have hm : ('$' : Char) ∉ METHOD.toList := by decide
  refine ⟨?_, ?_, ?_, ?_⟩
  · intro heq
    have hlist := congrArg String.toList heq
    rw [generate_password_hash, generate_password_hash, toList_mk, toList_mk] at hlist
    have hrest := List.append_cancel_left hlist
    have hrest2 : s1.toList ++ '$' :: pwDigest s1.toList p.toList =
        s2.toList ++ '$' :: pwDigest s2.toList p.toList := by
      injection hrest
    have e1 := breakAt_append_of_not_mem '$' s1.toList (pwDigest s1.toList p.toList) h1
    have e2 := breakAt_append_of_not_mem '$' s2.toList (pwDigest s2.toList p.toList) h2
    rw [hrest2, e2] at e1
    injection e1 with epair
    injection epair with efst esnd
    exact hne (toList_injective s1 s2 efst.symm)
  · rw [check_generate s1 p p h1]; simp
  · rw [check_generate s2 p p h2]; simp
  · simp only [recoverSalt, generate_password_hash, toList_mk,
      breakAt_append_of_not_mem _ _ _ hm, breakAt_append_of_not_mem _ _ _ h1]
    cases s1
    rfl

theorem C4_distinct_salts_witness :
    generate_password_hash sampleSalt samplePw ≠ generate_password_hash sampleSalt2 samplePw ∧
    check_password_hash (generate_password_hash sampleSalt samplePw) samplePw = true ∧
    check_password_hash (generate_password_hash sampleSalt2 samplePw) samplePw = true ∧
    recoverSalt (generate_password_hash sampleSalt samplePw) = some sampleSalt :=
  C4_distinct_salts sampleSalt sampleSalt2 samplePw (by decide) (by decide) (by decide)
    (by decide) (by decide)

/-- C5: verification is a total boolean function. It answers true only on
strings in the self-describing `method$salt$digest` format whose digest
matches the plaintext, and on any string without the two separators —
the malformedness werkzeug tests for — it returns false rather than
raising. -/
theorem C5_verify_total_malformed_false (s p : String) :
    (check_password_hash s p = true →
      ∃ m saltL, ('$' : Char) ∉ m ∧ ('$' : Char) ∉ saltL ∧
        s.toList = m ++ '$' :: (saltL ++ '$' :: pwDigest saltL p.toList)) ∧
    (s.toList.count '$' < 2 → check_password_hash s p = false) := by
  constructor
  · intro hc
    cases hb1 : breakAt '$' s.toList with
    | none =>
      simp only [check_password_hash, hb1] at hc
      exact (Bool.false_ne_true hc).elim
    | some mrest =>
      cases hb2 : breakAt '$' mrest.2 with
      | none =>
        simp only [check_password_hash, hb1, hb2] at hc
        exact (Bool.false_ne_true hc).elim
      | some saltHash =>
        simp only [check_password_hash, hb1, hb2, decide_eq_true_eq] at hc
        obtain ⟨hnm1, hs1⟩ := breakAt_eq_some '$' s.toList mrest.1 mrest.2 (by rw [hb1])
        obtain ⟨hnm2, hs2⟩ := breakAt_eq_some '$' mrest.2 saltHash.1 saltHash.2 (by rw [hb2])
        exact ⟨mrest.1, saltHash.1, hnm1, hnm2, by rw [hs1, hs2, hc]⟩
  · intro hcount
    cases hb1 : breakAt '$' s.toList with
    | none => simp only [check_password_hash, hb1]
    | some mrest =>
      obtain ⟨hnm1, hs1⟩ := breakAt_eq_some '$' s.toList mrest.1 mrest.2 (by rw [hb1])
      have hcnt : mrest.2.count '$' = 0 := by
        rw [hs1] at hcount
        simp [List.count_append, List.count_cons] at hcount
        omega
      have hb2 : breakAt '$' mrest.2 = none :=
        breakAt_eq_none_of_not_mem '$' mrest.2 (List.count_eq_zero.mp hcnt)
      simp only [check_password_hash, hb1, hb2]

theorem C5_verify_total_malformed_false_witness :
    (check_password_hash (generate_password_hash sampleSalt samplePw) samplePw = true →
      ∃ m saltL, ('$' : Char) ∉ m ∧ ('$' : Char) ∉ saltL ∧
        (generate_password_hash sampleSalt samplePw).toList =
          m ++ '$' :: (saltL ++ '$' :: pwDigest saltL samplePw.toList)) ∧
    ((generate_password_hash sampleSalt samplePw).toList.count '$' < 2 →
      check_password_hash (generate_password_hash sampleSalt samplePw) samplePw = false) :=
  C5_verify_total_malformed_false (generate_password_hash sampleSalt samplePw) samplePw

/-! ## Frame and invariant lemmas for the handlers -/

theorem login_state_db (s : AppState) (form : CreateLoginForm) :
    (login s form).state.db = s.db := by
  rw [login]
  split
  · split
    · split
      · rfl
      · rfl
    · rfl
  · rfl

theorem shop_state (s : AppState) : (shop s).state = s := by
  rw [shop]
  split <;> rfl

theorem register_emailsUnique (s : AppState) (salt : String) (form : CreateUserForm)
    (h : EmailsUnique s.db) : EmailsUnique (register s salt form).state.db := by
  cases hv : validRegister form with
  | false => simpa [register, hv] using h
  | true =>
    cases hf : findByEmail s.db form.email with
    | some u => simpa [register, hv, hf] using h
    | none =>
      have hnotmem : form.email ∉ s.db.users.map User.email := by
        intro hmem
        obtain ⟨u, hu, hue⟩ := List.mem_map.mp hmem
        have hfu := List.find?_eq_none.mp hf u hu
        simp [hue] at hfu
      have hgoal : ((s.db.users ++ [newUser s.db salt form]).map User.email).Nodup := by
        rw [List.map_append, List.nodup_append]
        refine ⟨h, by simp, ?_⟩
        intro a ha hb
        simp [newUser] at hb
        exact hnotmem (hb ▸ ha)
      simpa [register, hv, hf, EmailsUnique] using hgoal

theorem reachable_emailsUnique (s : AppState) (h : Reachable s) :
    EmailsUnique s.db := by
  induction h with
  | refl => exact List.nodup_nil
  | tail _ hstep ih =>
    cases hstep with
    | ofLogin form => rw [login_state_db]; exact ih
    | ofRegister salt form => exact register_emailsUnique _ salt form ih
    | ofLogout => exact ih
    | ofShop => rw [shop_state]; exact ih

/-! ## Claims about the authentication flow (spec sections 4.3, 4.4) -/

/-- C10: the login and logout operations never modify the credential
store, whatever their outcome. -/
theorem C10_login_logout_preserve_store (s : AppState) (form : CreateLoginForm) :
    (login s form).state.db = s.db ∧ (logout s).state.db = s.db :=
  ⟨login_state_db s form, rfl⟩

/-- C2: a submitted login with non-empty fields has exactly three
outcomes: an unknown email flashes that the email does not exist, keeps
the session anonymous and sends the user back to the login form; a wrong
password flashes that the password does not match, keeps the session
anonymous and sends the user back to the login form; a verified password
logs the user in and redirects to the landing page. -/
theorem C2_login_three_outcomes (s : AppState) (form : CreateLoginForm)
    (hanon : s.session = none) (he : form.email ≠ "") (hp : form.password ≠ "") :
    (findByEmail s.db form.email = none →
      login s form = { state := s, flashes := [msgNoEmail],
                       response := Response.redirect (url_for eLogin) } ∧
      current_user (login s form).state = none) ∧
    (∀ u, findByEmail s.db form.email = some u →
      check_password_hash u.password form.password = false →
      login s form = { state := s, flashes := [msgBadPassword],
                       response := Response.redirect (url_for eLogin) } ∧
      current_user (login s form).state = none) ∧
    (∀ u, findByEmail s.db form.email = some u →
      check_password_hash u.password form.password = true →
      (login s form).state = login_user s u ∧
      (login s form).state.session = some u.id ∧
      (login s form).flashes = [] ∧
      (login s form).response = Response.redirect (url_for eHome)) := by
  have hv : validLogin form = true := by simp [validLogin, he, hp]
  refine ⟨?_, ?_, ?_⟩
  · intro hfind
    have heq : login s form = { state := s, flashes := [msgNoEmail], response := Response.redirect (url_for eLogin) } := by
      simp [login, hv, hfind]
    exact ⟨heq, by rw [heq]; simp [current_user, hanon]⟩
  · intro u hfind hcheck
    have heq : login s form = { state := s, flashes := [msgBadPassword], response := Response.redirect (url_for eLogin) } := by
      simp [login, hv, hfind, hcheck]
    exact ⟨heq, by rw [heq]; simp [current_user, hanon]⟩
  · intro u hfind hcheck
    have heq : login s form = { state := login_user s u, flashes := [], response := Response.redirect (url_for eHome) } := by
      simp [login, hv, hfind, hcheck]
    exact ⟨by rw [heq], by rw [heq]; rfl, by rw [heq], by rw [heq]⟩

theorem C2_login_three_outcomes_witness :
    (findByEmail state1.db loginForm1.email = none →
      login state1 loginForm1 = { state := state1, flashes := [msgNoEmail],
                                  response := Response.redirect (url_for eLogin) } ∧
      current_user (login state1 loginForm1).state = none) ∧
    (∀ u, findByEmail state1.db loginForm1.email = some u →
      check_password_hash u.password loginForm1.password = false →
      login state1 loginForm1 = { state := state1, flashes := [msgBadPassword],
                                  response := Response.redirect (url_for eLogin) } ∧
      current_user (login state1 loginForm1).state = none) ∧
    (∀ u, findByEmail state1.db loginForm1.email = some u →
      check_password_hash u.password loginForm1.password = true →
      (login state1 loginForm1).state = login_user state1 u ∧
      (login state1 loginForm1).state.session = some u.id ∧
      (login state1 loginForm1).flashes = [] ∧
      (login state1 loginForm1).response = Response.redirect (url_for eHome)) :=
  C2_login_three_outcomes state1 loginForm1 (by decide) (by decide) (by decide)

/-- C1 as stated is false of the code: a valid registration with a fresh
email creates the record and responds with the redirect to the home
page, but establishes no authenticated session — the register route of
src/main.py never calls login_user, so the resulting session is still
Anonymous and current_user is none. -/
theorem C1_counterexample :
    (register initState sampleSalt regForm1).state.db.users = [user1] ∧
    (register initState sampleSalt regForm1).response = Response.redirect (url_for eHome) ∧
    (register initState sampleSalt regForm1).state.session = none ∧
    current_user (register initState sampleSalt regForm1).state = none := by
  refine ⟨rfl, rfl, rfl, rfl⟩

/-- C1 (amended): a valid registration with a fresh email hashes the
password, appends exactly the new User record, and responds with the
redirect to the home page, but establishes no session: the session
component is untouched and an anonymous requester remains anonymous
until a separate login. -/
theorem C1_register_creates_record_without_session (s : AppState) (salt : String)
    (form : CreateUserForm) (hnew : findByEmail s.db form.email = none)
    (hn : form.name ≠ "") (he : form.email ≠ "") (hp : form.password ≠ "")
    (hanon : s.session = none) :
    (register s salt form).state.db.users = s.db.users ++ [newUser s.db salt form] ∧
    (newUser s.db salt form).password = generate_password_hash salt form.password ∧
    (register s salt form).state.session = none ∧
    current_user (register s salt form).state = none ∧
    (register s salt form).response = Response.redirect (url_for eHome) := by
  have hv : validRegister form = true := by simp [validRegister, hn, he, hp]
  have heq : register s salt form =
      { state := { db := { users := s.db.users ++ [newUser s.db salt form],
                           nextId := s.db.nextId + 1 },
                   session := s.session },
        flashes := [], response := Response.redirect (url_for eHome) } := by
    simp [register, hv, hnew]
  refine ⟨by rw [heq], rfl, by rw [heq]; exact hanon, ?_, by rw [heq]⟩
  rw [heq]
  simp [current_user, hanon]

theorem C1_register_creates_record_without_session_witness :
    (register initState sampleSalt regForm1).state.db.users =
      initState.db.users ++ [newUser initState.db sampleSalt regForm1] ∧
    (newUser initState.db sampleSalt regForm1).password =
      generate_password_hash sampleSalt regForm1.password ∧
    (register initState sampleSalt regForm1).state.session = none ∧
    current_user (register initState sampleSalt regForm1).state = none ∧
    (register initState sampleSalt regForm1).response = Response.redirect (url_for eHome) :=
  C1_register_creates_record_without_session initState sampleSalt regForm1 (by decide)
    (by decide) (by decide) (by decide) (by decide)

/-- C6: registration with an email that already belongs to a user flashes
that the email already exists, creates no record (the users table and the
whole state are unchanged), and redirects to the login page. -/
theorem C6_register_duplicate_email (s : AppState) (salt : String)
    (form : CreateUserForm) (u : User)
    (hfound : findByEmail s.db form.email = some u)
    (hn : form.name ≠ "") (he : form.email ≠ "") (hp : form.password ≠ "") :
    register s salt form = { state := s, flashes := [msgEmailExists],
                             response := Response.redirect (url_for eLogin) } ∧
    (register s salt form).state.db.users = s.db.users := by
  have hv : validRegister form = true := by simp [validRegister, hn, he, hp]
  have heq : register s salt form = { state := s, flashes := [msgEmailExists], response := Response.redirect (url_for eLogin) } := by
    simp [register, hv, hfound]
  exact ⟨heq, by rw [heq]⟩

theorem C6_register_duplicate_email_witness :
    register state1 sampleSalt2 regForm1 =
      { state := state1, flashes := [msgEmailExists],
        response := Response.redirect (url_for eLogin) } ∧
    (register state1 sampleSalt2 regForm1).state.db.users = state1.db.users :=
  C6_register_duplicate_email state1 sampleSalt2 regForm1 user1 (by decide)
    (by decide) (by decide) (by decide)

/-- C7: email uniqueness is an invariant of the credential store — every
reachable state has pairwise distinct user emails — and registering an
email that is already present leaves the users table unchanged, so no
second record with that email is ever created. -/
theorem C7_email_uniqueness_invariant (s : AppState) (salt : String)
    (form : CreateUserForm) (h : Reachable s)
    (hpresent : (findByEmail s.db form.email).isSome = true) :
    EmailsUnique s.db ∧
    (register s salt form).state.db.users = s.db.users := by
  refine ⟨reachable_emailsUnique s h, ?_⟩
  obtain ⟨u, hu⟩ := Option.isSome_iff_exists.mp hpresent
  cases hv : validRegister form with
  | false => simp [register, hv]
  | true => simp [register, hv, hu]

theorem C7_email_uniqueness_invariant_witness :
    EmailsUnique state1.db ∧
    (register state1 sampleSalt2 regForm1).state.db.users = state1.db.users :=
  C7_email_uniqueness_invariant state1 sampleSalt2 regForm1
    (Relation.ReflTransGen.single (Step.ofRegister initState sampleSalt regForm1))
    (by decide)

/-- C8: in any reachable state whose session resolves to no current user,
the shop route never returns the protected template; it responds with a
redirect to the login entry point. -/
theorem C8_shop_guard (s : AppState) (h : Reachable s)
    (hanon : current_user s = none) :
    (shop s).response = Response.redirect (url_for eLogin) ∧
    (shop s).response ≠ Response.render tGlasses := by
  have heq : shop s = { state := s, flashes := [], response := Response.redirect (url_for eLogin) } := by
    simp [shop, hanon]
  rw [heq]
  exact ⟨rfl, by simp⟩

theorem C8_shop_guard_witness :
    (shop initState).response = Response.redirect (url_for eLogin) ∧
    (shop initState).response ≠ Response.render tGlasses :=
  C8_shop_guard initState Relation.ReflTransGen.refl rfl

/-- C9: after login_user(u) the session is Authenticated(u.id) and
current_user returns a record with the same id as u; after logout the
session is Anonymous and current_user returns none; logout on an already
anonymous state is a no-op that leaves the state unchanged. -/
theorem C9_session_lifecycle (s t : AppState) (u : User)
    (hmem : u ∈ s.db.users) (ht : t.session = none) :
    (login_user s u).session = some u.id ∧
    (∃ v, current_user (login_user s u) = some v ∧ v.id = u.id) ∧
    current_user (logout s).state = none ∧
    (logout s).state.session = none ∧
    (logout t).state = t := by
  have h1 : (s.db.users.find? (fun x => x.id == u.id)).isSome :=
    List.find?_isSome.mpr ⟨u, hmem, by simp⟩
  obtain ⟨v, hv⟩ := Option.isSome_iff_exists.mp h1
  have hvid : v.id = u.id := by
    have hpv := List.find?_some hv
    simpa using hpv
  refine ⟨rfl, ⟨v, hv, hvid⟩, rfl, rfl, ?_⟩
  cases t with
  | mk db sess =>
    have hsess : sess = none := ht
    rw [logout]
    show logout_user (AppState.mk db sess) = AppState.mk db sess
    rw [logout_user, hsess]

theorem C9_session_lifecycle_witness :
    (login_user state1 user1).session = some user1.id ∧
    (∃ v, current_user (login_user state1 user1) = some v ∧ v.id = user1.id) ∧
    current_user (logout state1).state = none ∧
    (logout state1).state.session = none ∧
    (logout initState).state = initState :=
  C9_session_lifecycle state1 initState user1 (by decide) (by decide)

end OnlineShop
